import Mathlib

/-!
Verification of the resilient job-submission and progress-streaming protocol
implemented in `frontend/src/App.js` of the seo-audit-app repository.

The embedding translates the relevant functions of `App.js` into Lean:
  * the wake-up backoff delay formula used by `wakeUpServer` (startup prober)
    and `wakeUpServerBeforeAudit` (pre-submission prober);
  * the two readiness probers themselves, as trace-producing functions over an
    oracle of probe outcomes;
  * the SSE `onmessage` handlers (original and post-reconciliation) and the
    per-frame try/parse/dispatch/catch discipline;
  * `sendAuditRequest` (submission with transient-failure retry);
  * `handleAudit` (the orchestrator), as a trace of observable actions over an
    environment fixing the probe outcomes, submission outcomes, the generated
    request id and the previously stored SSE connection.

URL normalization (`normalizeUrl`) is out of scope per the specification;
`handleAudit` here receives the already-normalized URL and embeds only the
emptiness check that `handleAudit` in the source performs on it.
-/

/-! ## Backoff policy (App.js lines 100-102, 154, 183-185, 225) -/

/-- `INITIAL_DELAY = 2000` ms, shared by both retry contexts. -/
def INITIAL_DELAY : ℕ := 2000

/-- `MAX_DELAY = 30000` ms, shared by both retry contexts. -/
def MAX_DELAY : ℕ := 30000

/-- `MAX_RETRIES = 5` of the startup prober `wakeUpServer`. -/
def WAKE_MAX_RETRIES : ℕ := 5

/-- `MAX_RETRIES = 8` of the pre-submission prober `wakeUpServerBeforeAudit`. -/
def AUDIT_MAX_RETRIES : ℕ := 8

/-- The delay computed at App.js line 154 inside `wakeUpServer`:
`Math.min(INITIAL_DELAY * Math.pow(2, retryCount), MAX_DELAY)`. -/
def wakeUpDelay (retryCount : ℕ) : ℕ :=
  min (INITIAL_DELAY * 2 ^ retryCount) MAX_DELAY

/-- The delay computed at App.js line 225 inside `wakeUpServerBeforeAudit`:
`Math.min(INITIAL_DELAY * Math.pow(2, retryCount), MAX_DELAY)`. -/
def auditWakeDelay (retryCount : ℕ) : ℕ :=
  min (INITIAL_DELAY * 2 ^ retryCount) MAX_DELAY

/-! ## Probe outcomes and the two readiness probers -/

/-- Outcome of one `fetch(API_BASE_URL/ping)` attempt.  `ok` is `response.ok`;
`httpError s` is a response with `response.ok` false and status `s`;
`timeout` is a thrown `AbortError`; `netError` is any other thrown error. -/
inductive ProbeOutcome
  | ok
  | httpError (status : ℕ)
  | timeout
  | netError
deriving DecidableEq

/-- Observable steps of a prober run: a ping attempt with its zero-based
index and outcome, or a sleep of the given number of milliseconds. -/
inductive WakeAction
  | attempt (k : ℕ) (o : ProbeOutcome)
  | wait (ms : ℕ)
deriving DecidableEq

/-- Loop body of `wakeUpServerBeforeAudit` (App.js lines 190-230), driven by
an oracle `outcomes` giving the outcome of each attempt.  `fuel` counts the
remaining loop iterations (`MAX_RETRIES - retryCount`); `k` is `retryCount`.
On `response.ok` the function returns `true`; a non-ok response merely
continues the loop (there is no wait in that branch); a thrown error waits
`auditWakeDelay k` before the next attempt unless this was the last one.
Exhausting the loop returns `false`. -/
def wakeBeforeAuditGo (outcomes : ℕ → ProbeOutcome) :
    ℕ → ℕ → List WakeAction × Bool
  | 0, _ => ([], false)
  | fuel + 1, k =>
    match outcomes k with
    | .ok => ([.attempt k .ok], true)
    | .httpError s =>
      let rest := wakeBeforeAuditGo outcomes fuel (k + 1)
      (.attempt k (.httpError s) :: rest.1, rest.2)
    | .timeout =>
      let rest := wakeBeforeAuditGo outcomes fuel (k + 1)
      if k < AUDIT_MAX_RETRIES - 1 then
        (.attempt k .timeout :: .wait (auditWakeDelay k) :: rest.1, rest.2)
      else
        (.attempt k .timeout :: rest.1, rest.2)
    | .netError =>
      let rest := wakeBeforeAuditGo outcomes fuel (k + 1)
      if k < AUDIT_MAX_RETRIES - 1 then
        (.attempt k .netError :: .wait (auditWakeDelay k) :: rest.1, rest.2)
      else
        (.attempt k .netError :: rest.1, rest.2)

/-- `wakeUpServerBeforeAudit` (App.js lines 182-236): an 8-iteration probing
loop returning `true` on the first healthy response and `false` on
exhaustion. -/
def wakeUpServerBeforeAudit (outcomes : ℕ → ProbeOutcome) :
    List WakeAction × Bool :=
  wakeBeforeAuditGo outcomes AUDIT_MAX_RETRIES 0

/-- Recursion of the startup prober `wakeUpServer` (App.js lines 99-172).
On `response.ok` it succeeds.  A non-ok response only logs and falls through
the try block: no retry is scheduled, the run ends.  A thrown error retries
via `setTimeout` after `wakeUpDelay k` while `retryCount < MAX_RETRIES - 1`,
and otherwise ends the run. -/
def wakeUpServerGo (outcomes : ℕ → ProbeOutcome) :
    ℕ → ℕ → List WakeAction × Bool
  | 0, _ => ([], false)
  | fuel + 1, k =>
    match outcomes k with
    | .ok => ([.attempt k .ok], true)
    | .httpError s => ([.attempt k (.httpError s)], false)
    | .timeout =>
      if k < WAKE_MAX_RETRIES - 1 then
        let rest := wakeUpServerGo outcomes fuel (k + 1)
        (.attempt k .timeout :: .wait (wakeUpDelay k) :: rest.1, rest.2)
      else
        ([.attempt k .timeout], false)
    | .netError =>
      if k < WAKE_MAX_RETRIES - 1 then
        let rest := wakeUpServerGo outcomes fuel (k + 1)
        (.attempt k .netError :: .wait (wakeUpDelay k) :: rest.1, rest.2)
      else
        ([.attempt k .netError], false)

/-- The startup prober `wakeUpServer` invoked with `retryCount = 0`
(App.js line 178). -/
def wakeUpServer (outcomes : ℕ → ProbeOutcome) : List WakeAction × Bool :=
  wakeUpServerGo outcomes WAKE_MAX_RETRIES 0

/-- Number of ping attempts recorded in a prober trace. -/
def attemptCount (tr : List WakeAction) : ℕ :=
  (tr.filter fun a => match a with | .attempt _ _ => true | _ => false).length

/-! ## SSE events and the two onmessage handlers (App.js 290-322, 401-420) -/

/-- Fields of `eventData.data` read by the handlers.  Times are rationals,
embedding JavaScript fractional seconds; `retry_time_from_error` is `none`
when the upstream error supplied no wait (the falsy case of the template at
App.js line 309). -/
structure EventPayload where
  url : String
  message : String
  agent_name : String
  retry_attempt : ℕ
  max_retries : ℕ
  total_wait_time : ℚ
  retry_time_from_error : Option ℚ
  jitter : ℚ
deriving DecidableEq

/-- A decoded SSE frame: `eventData` after `JSON.parse`.  The `timestamp`
field is read at App.js line 295 but otherwise unused by the handler. -/
structure SSEEvent where
  type : String
  timestamp : Option String
  data : EventPayload
deriving DecidableEq

/-- Severity tag passed to `addRetryLog`. -/
inductive LogKind
  | info
  | success
  | warning
  | error
deriving DecidableEq

/-- The retry-log lines the `onmessage` handlers can append, one constructor
per `addRetryLog` call site, carrying the payload fields interpolated into
the message string. -/
inductive RMsg
  | sseEstablished
  | startingAudit (url : String)
  | agentWarn (agent msg : String)
  | retryWaitDetail (attempt maxR : ℕ) (total : ℚ) (fromErr : Option ℚ) (jit : ℚ)
  | retryWaitShort (attempt maxR : ℕ) (total : ℚ)
  | retryComplete (msg : String)
  | auditCompleted (msg : String)
  | auditError (msg : String)
deriving DecidableEq

/-- Dispatch of the original `onmessage` handler (App.js lines 297-318):
the if/else chain on `eventData.type`, returning the `addRetryLog` entries it
appends.  An unrecognized type falls through all branches and logs nothing. -/
def handleSSEMessage (e : SSEEvent) : List (RMsg × LogKind) :=
  if e.type = "connected" then
    [(.sseEstablished, .success)]
  else if e.type = "audit_started" then
    [(.startingAudit e.data.url, .info)]
  else if e.type = "quota_exhausted_retry" ∨ e.type = "rate_limit_retry" then
    [(.agentWarn e.data.agent_name e.data.message, .warning),
     (.retryWaitDetail e.data.retry_attempt e.data.max_retries
        e.data.total_wait_time e.data.retry_time_from_error e.data.jitter, .info)]
  else if e.type = "retry_complete" then
    [(.retryComplete e.data.message, .success)]
  else if e.type = "audit_completed" then
    [(.auditCompleted e.data.message, .success)]
  else if e.type = "audit_error" then
    [(.auditError e.data.message, .error)]
  else
    []

/-- Dispatch of the handler re-installed after reconciliation (App.js lines
401-420): the same chain but with no `audit_error` branch and the shorter
retry line without the from-error/jitter breakdown. -/
def handleSSEMessageReconciled (e : SSEEvent) : List (RMsg × LogKind) :=
  if e.type = "connected" then
    [(.sseEstablished, .success)]
  else if e.type = "audit_started" then
    [(.startingAudit e.data.url, .info)]
  else if e.type = "quota_exhausted_retry" ∨ e.type = "rate_limit_retry" then
    [(.agentWarn e.data.agent_name e.data.message, .warning),
     (.retryWaitShort e.data.retry_attempt e.data.max_retries
        e.data.total_wait_time, .info)]
  else if e.type = "retry_complete" then
    [(.retryComplete e.data.message, .success)]
  else if e.type = "audit_completed" then
    [(.auditCompleted e.data.message, .success)]
  else
    []

/-- An incoming frame as the handler sees it: either its payload fails
`JSON.parse` (malformed, carrying the raw text) or it decodes to an
`SSEEvent`. -/
inductive Frame
  | malformed (raw : String)
  | wellFormed (e : SSEEvent)
deriving DecidableEq

/-- Consumer-side state threaded through `onmessage` calls: the progress log
(`retryLogs`), the number of `console.error` lines, and whether the
`EventSource` channel is open.  The handler itself never calls
`eventSource.close()`, which the embedding makes explicit by showing
`channelOpen` is untouched. -/
structure ConsumerState where
  retryLogs : List (RMsg × LogKind)
  consoleErrors : ℕ
  channelOpen : Bool
deriving DecidableEq

/-- One `onmessage` invocation (App.js lines 290-322): the whole body is a
try/catch; a frame whose payload fails to parse reaches the catch, which only
calls `console.error` — the progress log and the channel are untouched, and
no exception escapes (the function is total).  A well-formed frame appends
its dispatch result to the progress log. -/
def onMessage (s : ConsumerState) (f : Frame) : ConsumerState :=
  match f with
  | .malformed _ => { s with consoleErrors := s.consoleErrors + 1 }
  | .wellFormed e => { s with retryLogs := s.retryLogs ++ handleSSEMessage e }

/-- Delivering a sequence of frames to the handler. -/
def processFrames (s : ConsumerState) (fs : List Frame) : ConsumerState :=
  fs.foldl onMessage s

/-! ## Submission with retry (App.js 334-380) and the orchestrator (238-461) -/

/-- Outcome of one `fetch(API_BASE_URL/api/audit)` attempt.  `ok rid` is a
successful response whose body carries `request_id = rid` (`none` when the
body has no `request_id`); `httpErr s` is a response with `response.ok`
false, which the code turns into a thrown `Error` whose message starts with
"HTTP error!"; `netFail` is a thrown error whose message includes
"Failed to fetch"; `abortTimeout` is a thrown `AbortError` (the 2-minute
timeout). -/
inductive SubmitOutcome
  | ok (rid : Option String)
  | httpErr (status : ℕ)
  | netFail
  | abortTimeout
deriving DecidableEq

/-- The classified error a failed submission propagates. -/
inductive AuditErr
  | httpError (status : ℕ)
  | failedToFetch
  | aborted
deriving DecidableEq

/-- The thrown error corresponding to a failed `SubmitOutcome` (`ok` is
mapped arbitrarily; it never reaches the catch). -/
def errOf : SubmitOutcome → AuditErr
  | .ok _ => .failedToFetch
  | .httpErr s => .httpError s
  | .netFail => .failedToFetch
  | .abortTimeout => .aborted

/-- The retry guard at App.js line 361:
`(err.message && err.message.includes(,Failed to fetch,)) || err.name ===
,AbortError,`.  The synthetic "HTTP error! status: s" message matches
neither disjunct. -/
def isTransient : AuditErr → Bool
  | .httpError _ => false
  | .failedToFetch => true
  | .aborted => true

/-- Orchestrator-level retry-log lines relevant to the claims, one
constructor per `addRetryLog` call site in `sendAuditRequest`, carrying the
interpolated attempt indices. -/
inductive OMsg
  | sendingAudit (attempt maxA : ℕ)
  | auditRequestFailed (e : AuditErr)
  | retryingAfterWake (nextAttempt maxA : ℕ)
  | reconnectingSSE
deriving DecidableEq

/-- Observable actions of one `handleAudit` run, in program order.  `probe`
and `wait` actions inside a prober run are lifted from `WakeAction`;
`openStream`/`closeStream` are `new EventSource(...)` and
`eventSource.close()`; `scheduleClose id ms` is the `setTimeout` in the
finally block that closes the stream after the grace period; `submit k` is
the k-th (1-based) POST of the audit request; `setResult`/`setError` deliver
the terminal outcome to the caller. -/
inductive OAction
  | probe (k : ℕ) (o : ProbeOutcome)
  | wait (ms : ℕ)
  | openStream (id : String)
  | closeStream (id : String)
  | scheduleClose (id : String) (ms : ℕ)
  | submit (k : ℕ)
  | log (m : OMsg) (lk : LogKind)
  | setResult
  | setError
deriving DecidableEq

/-- Lift a prober step into the orchestrator trace. -/
def liftWake : WakeAction → OAction
  | .attempt k o => .probe k o
  | .wait ms => .wait ms

/-- `maxAttempts = 3` of `sendAuditRequest` (App.js line 334). -/
def SUBMIT_MAX_ATTEMPTS : ℕ := 3

/-- `sendAuditRequest` (App.js lines 334-380), driven by an oracle `submits`
of per-attempt outcomes and, for the prober re-runs inside retries, an
oracle `wakes` of probe outcomes per submission attempt.  `fuel` is a
structural-termination device only: every call keeps
`fuel ≥ SUBMIT_MAX_ATTEMPTS - attempt + 1`, so the base case is never
reached.  Each attempt logs its index and issues the POST; a success returns
the response; a thrown failure that is transient while `attempt <
maxAttempts` logs the failure and the next attempt index, re-runs
`wakeUpServerBeforeAudit`, waits 2000 ms and recurses; any other failure is
re-thrown. -/
def sendGo (submits : ℕ → SubmitOutcome) (wakes : ℕ → ℕ → ProbeOutcome) :
    ℕ → ℕ → List OAction × Except AuditErr (Option String)
  | 0, _ => ([], .error .failedToFetch)
  | fuel + 1, attempt =>
    let hdr : List OAction :=
      [.log (.sendingAudit attempt SUBMIT_MAX_ATTEMPTS) .info, .submit attempt]
    match submits attempt with
    | .ok rid => (hdr, .ok rid)
    | .httpErr s => (hdr, .error (.httpError s))
    | .netFail =>
      if attempt < SUBMIT_MAX_ATTEMPTS then
        let wtr := (wakeUpServerBeforeAudit (wakes attempt)).1.map liftWake
        let rest := sendGo submits wakes fuel (attempt + 1)
        (hdr ++
          [.log (.auditRequestFailed .failedToFetch) .error,
           .log (.retryingAfterWake (attempt + 1) SUBMIT_MAX_ATTEMPTS) .warning] ++
          wtr ++ [.wait 2000] ++ rest.1, rest.2)
      else
        (hdr, .error .failedToFetch)
    | .abortTimeout =>
      if attempt < SUBMIT_MAX_ATTEMPTS then
        let wtr := (wakeUpServerBeforeAudit (wakes attempt)).1.map liftWake
        let rest := sendGo submits wakes fuel (attempt + 1)
        (hdr ++
          [.log (.auditRequestFailed .aborted) .error,
           .log (.retryingAfterWake (attempt + 1) SUBMIT_MAX_ATTEMPTS) .warning] ++
          wtr ++ [.wait 2000] ++ rest.1, rest.2)
      else
        (hdr, .error .aborted)

/-- `sendAuditRequest()` as called at App.js line 383: attempt 1 of 3. -/
def sendAuditRequest (submits : ℕ → SubmitOutcome)
    (wakes : ℕ → ℕ → ProbeOutcome) : List OAction × Except AuditErr (Option String) :=
  sendGo submits wakes SUBMIT_MAX_ATTEMPTS 1

/-- The environment of one `handleAudit` run: the previously stored SSE
connection (`sseConnection`), the client-generated `requestId`, the probe
outcomes of the initial `wakeUpServerBeforeAudit`, the probe outcomes of the
prober re-runs inside submission retries, and the submission outcomes. -/
structure Env where
  prior : Option String
  clientId : String
  probesInit : ℕ → ProbeOutcome
  probesRetry : ℕ → ℕ → ProbeOutcome
  submits : ℕ → SubmitOutcome

/-- Terminal outcome of a `handleAudit` run.  `completed fid` carries the
correlation id the run ends on (the server-assigned one after
reconciliation, the client one otherwise). -/
inductive HResult
  | invalidUrl
  | completed (fid : String)
  | failed (e : AuditErr)
deriving DecidableEq

/-- App.js lines 256-264: the initial `wakeUpServerBeforeAudit` run of
`handleAudit` and, when it returned `false`, the extra 2000 ms wait before
proceeding anyway. -/
def preTrace (env : Env) : List OAction :=
  (wakeUpServerBeforeAudit env.probesInit).1.map liftWake ++
    (if (wakeUpServerBeforeAudit env.probesInit).2 then []
     else [OAction.wait 2000])

/-- App.js lines 266-270: close any previously stored SSE connection before
opening a new one. -/
def closePrior (env : Env) : List OAction :=
  match env.prior with
  | some p => [.closeStream p]
  | none => []

/-- App.js lines 279-331: connect the `EventSource` for the client-generated
request id before submitting, and the two 500 ms waits for the connection to
establish. -/
def openTrace (env : Env) : List OAction :=
  [.openStream env.clientId, .wait 500, .wait 500]

/-- App.js lines 390-421 (reconciliation): when the submission response
carries a truthy `request_id` different from the client-generated one, close
the old stream and open a new one under the server-assigned id; also
computes the final id the run ends on. -/
def reconTrace (clientId : String) (rid : Option String) :
    List OAction × String :=
  match rid with
  | some r =>
    if r ≠ "" ∧ r ≠ clientId then
      ([.log .reconnectingSSE .info, .closeStream clientId, .openStream r], r)
    else
      ([], clientId)
  | none => ([], clientId)

/-- `handleAudit` (App.js lines 238-461) as a trace of observable actions,
in source order: validate the normalized URL; run the pre-submission prober
and, when it exhausted, wait a further 2000 ms; close any previously stored
SSE connection; open the stream for the client id and wait twice 500 ms for
it to establish; run `sendAuditRequest`.  On success, when the response
carries a non-empty `request_id` different from the client one, close the
current stream and open a new one under the server id (reconciliation), then
deliver the result; the finally block schedules the stream for close after
5000 ms.  On failure, the catch closes the stream immediately, delivers the
classified error, and the finally block still schedules the (already closed)
stream for close after 5000 ms. -/
def handleAudit (env : Env) (normalizedUrl : String) : List OAction × HResult :=
  if normalizedUrl = "" ∨ normalizedUrl = "https://" then
    ([], .invalidUrl)
  else
    match (sendAuditRequest env.submits env.probesRetry).2 with
    | .ok rid =>
      (preTrace env ++ closePrior env ++ openTrace env ++
        (sendAuditRequest env.submits env.probesRetry).1 ++
        (reconTrace env.clientId rid).1 ++
        [.setResult, .scheduleClose (reconTrace env.clientId rid).2 5000],
       .completed (reconTrace env.clientId rid).2)
    | .error e =>
      (preTrace env ++ closePrior env ++ openTrace env ++
        (sendAuditRequest env.submits env.probesRetry).1 ++
        [.closeStream env.clientId, .setError,
         .scheduleClose env.clientId 5000], .failed e)

/-! ## Derived observations on orchestrator traces -/

/-- Whether an action opens or closes a stream. -/
def OAction.isStream : OAction → Bool
  | .openStream _ => true
  | .closeStream _ => true
  | _ => false

/-- Whether an action is a submission POST. -/
def OAction.isSubmit : OAction → Bool
  | .submit _ => true
  | _ => false

/-- Number of submission POSTs in a trace. -/
def submitCount (tr : List OAction) : ℕ :=
  (tr.filter OAction.isSubmit).length

/-- Replay a trace against the multiset `opns` of currently open stream ids,
checking at each `openStream` that no stream with the same id is already
open — that is, that at every instant at most one consumer is open per
correlation id. -/
def opensOK : List String → List OAction → Bool
  | _, [] => true
  | opns, .openStream id :: rest =>
    decide (opns.count id = 0) && opensOK (id :: opns) rest
  | opns, .closeStream id :: rest => opensOK (opns.erase id) rest
  | opns, _ :: rest => opensOK opns rest

/-! ## C1: the wake-up backoff delay -/

/-- C1 (counterexample): the claim asserts the computed retry delay equals
`min(initialDelay * 2^n, maxDelay)` plus an independently drawn random
jitter term.  The code at App.js lines 154 and 225 adds no jitter at all:
already at attempt 0 the delay admits no positive jitter component, in
either retry context — it is exactly the capped exponential, so no random
(possibly positive) jitter term is ever added. -/
theorem C1_counterexample :
    ¬ ∃ j : ℕ, 0 < j ∧
      (auditWakeDelay 0 = min (INITIAL_DELAY * 2 ^ 0) MAX_DELAY + j ∨
       wakeUpDelay 0 = min (INITIAL_DELAY * 2 ^ 0) MAX_DELAY + j) := by
  rintro ⟨j, hj, h | h⟩ <;> simp [auditWakeDelay, wakeUpDelay] at h <;> omega

/-- C1 (amended): for every attempt index n, the retry delay of both the
startup and the pre-submission retry context equals
`min(2000 * 2^n, 30000)` with no jitter term, is non-negative (it is a
natural number), never exceeds `MAX_DELAY = 30000`, and is monotonically
non-decreasing in n. -/
theorem C1_amended_backoff (n m : ℕ) (h : n ≤ m) :
    auditWakeDelay n = min (2000 * 2 ^ n) 30000 ∧
    wakeUpDelay n = auditWakeDelay n ∧
    auditWakeDelay n ≤ MAX_DELAY ∧
    auditWakeDelay n ≤ auditWakeDelay m := by
  refine ⟨rfl, rfl, min_le_right _ _, ?_⟩
  exact min_le_min
    (Nat.mul_le_mul_left _ (Nat.pow_le_pow_right (by norm_num) h)) le_rfl

/-- C1 (witness): the amended backoff statement at n = 3, m = 5. -/
theorem C1_amended_backoff_witness :
    auditWakeDelay 3 = min (2000 * 2 ^ 3) 30000 ∧
    wakeUpDelay 3 = auditWakeDelay 3 ∧
    auditWakeDelay 3 ≤ MAX_DELAY ∧
    auditWakeDelay 3 ≤ auditWakeDelay 5 :=
  C1_amended_backoff 3 5 (by decide)

/-! ## C2: malformed frames are discarded without closing the channel -/

/-- C2: a frame whose payload fails to parse is logged (one `console.error`
line) and discarded — the progress log is unchanged and the channel stays
open, and since `onMessage` is a total function no exception escapes the
handler; feeding one corrupt frame followed by one well-formed frame
delivers exactly the well-formed frame to the progress log. -/
theorem C2_malformed_frame_discarded (s : ConsumerState) (raw : String)
    (e : SSEEvent) :
    processFrames s [Frame.malformed raw, Frame.wellFormed e] =
      { retryLogs := s.retryLogs ++ handleSSEMessage e,
        consoleErrors := s.consoleErrors + 1,
        channelOpen := s.channelOpen } := rfl

/-! ## C7: the pre-submission prober is bounded -/

theorem attemptCount_nil : attemptCount [] = 0 := rfl

theorem attemptCount_cons_attempt (k : ℕ) (o : ProbeOutcome)
    (tr : List WakeAction) :
    attemptCount (.attempt k o :: tr) = attemptCount tr + 1 := by
  simp [attemptCount, List.filter, Nat.add_comm]

theorem attemptCount_cons_wait (ms : ℕ) (tr : List WakeAction) :
    attemptCount (.wait ms :: tr) = attemptCount tr := by
  simp [attemptCount, List.filter]

/-- Loop invariant of the pre-submission prober: a run with `fuel` remaining
iterations performs at most `fuel` attempts, and succeeds exactly when some
attempt within the remaining window draws a healthy response. -/
theorem wakeBeforeAuditGo_spec (o : ℕ → ProbeOutcome) :
    ∀ fuel k, attemptCount (wakeBeforeAuditGo o fuel k).1 ≤ fuel ∧
      ((wakeBeforeAuditGo o fuel k).2 = true ↔
        ∃ j, j < fuel ∧ o (k + j) = .ok) := by
  intro fuel
  induction fuel with
  | zero => intro k; simp [wakeBeforeAuditGo, attemptCount_nil]
  | succ fuel ih =>
    intro k
    obtain ⟨ihc, ihr⟩ := ih (k + 1)
    have shift : (∃ j, j < fuel ∧ o (k + 1 + j) = .ok) →
        ∃ j, j < fuel + 1 ∧ o (k + j) = .ok := by
      rintro ⟨j, hj, hok⟩
      exact ⟨j + 1, by omega, by rwa [show k + (j + 1) = k + 1 + j by omega]⟩
    have unshift : o k ≠ .ok → (∃ j, j < fuel + 1 ∧ o (k + j) = .ok) →
        ∃ j, j < fuel ∧ o (k + 1 + j) = .ok := by
      rintro hne ⟨j, hj, hok⟩
      match j with
      | 0 => simp at hok; exact absurd hok hne
      | j + 1 =>
        exact ⟨j, by omega, by rwa [show k + 1 + j = k + (j + 1) by omega]⟩
    cases ho : o k with
    | ok =>
      refine ⟨?_, ?_⟩
      · simp [wakeBeforeAuditGo, ho, attemptCount_cons_attempt, attemptCount_nil]
      · simp only [wakeBeforeAuditGo, ho]
        exact ⟨fun _ => ⟨0, by omega, by simpa using ho⟩, fun _ => by trivial⟩
    | httpError s =>
      refine ⟨?_, ?_⟩
      · simp only [wakeBeforeAuditGo, ho]
        rw [attemptCount_cons_attempt]; omega
      · simp only [wakeBeforeAuditGo, ho]
        exact ⟨fun h => shift (ihr.mp h),
          fun h => ihr.mpr (unshift (by simp [ho]) h)⟩
    | timeout =>
      refine ⟨?_, ?_⟩
      · simp only [wakeBeforeAuditGo, ho]
        split
        · rw [attemptCount_cons_attempt, attemptCount_cons_wait]; omega
        · rw [attemptCount_cons_attempt]; omega
      · simp only [wakeBeforeAuditGo, ho]
        have : (if k < AUDIT_MAX_RETRIES - 1 then
            (WakeAction.attempt k .timeout :: .wait (auditWakeDelay k) ::
              (wakeBeforeAuditGo o fuel (k + 1)).1,
             (wakeBeforeAuditGo o fuel (k + 1)).2)
          else (WakeAction.attempt k .timeout ::
              (wakeBeforeAuditGo o fuel (k + 1)).1,
            (wakeBeforeAuditGo o fuel (k + 1)).2)).2 =
            (wakeBeforeAuditGo o fuel (k + 1)).2 := by split <;> rfl
        rw [this]
        exact ⟨fun h => shift (ihr.mp h),
          fun h => ihr.mpr (unshift (by simp [ho]) h)⟩
    | netError =>
      refine ⟨?_, ?_⟩
      · simp only [wakeBeforeAuditGo, ho]
        split
        · rw [attemptCount_cons_attempt, attemptCount_cons_wait]; omega
        · rw [attemptCount_cons_attempt]; omega
      · simp only [wakeBeforeAuditGo, ho]
        have : (if k < AUDIT_MAX_RETRIES - 1 then
            (WakeAction.attempt k .netError :: .wait (auditWakeDelay k) ::
              (wakeBeforeAuditGo o fuel (k + 1)).1,
             (wakeBeforeAuditGo o fuel (k + 1)).2)
          else (WakeAction.attempt k .netError ::
              (wakeBeforeAuditGo o fuel (k + 1)).1,
            (wakeBeforeAuditGo o fuel (k + 1)).2)).2 =
            (wakeBeforeAuditGo o fuel (k + 1)).2 := by split <;> rfl
        rw [this]
        exact ⟨fun h => shift (ihr.mp h),
          fun h => ihr.mpr (unshift (by simp [ho]) h)⟩

/-- The prober stops at the first healthy response: if attempt `j` (relative
to the window start) is the first `ok`, the run performs exactly `j + 1`
attempts and returns `true`. -/
theorem wakeBeforeAuditGo_first_ok (o : ℕ → ProbeOutcome) :
    ∀ fuel k j, j < fuel → (∀ i, i < j → o (k + i) ≠ .ok) → o (k + j) = .ok →
      attemptCount (wakeBeforeAuditGo o fuel k).1 = j + 1 ∧
      (wakeBeforeAuditGo o fuel k).2 = true := by
  intro fuel
  induction fuel with
  | zero => intro k j hj; omega
  | succ fuel ih =>
    intro k j hj hfirst hok
    match j with
    | 0 =>
      simp only [Nat.add_zero] at hok
      constructor
      · simp [wakeBeforeAuditGo, hok, attemptCount_cons_attempt,
          attemptCount_nil]
      · simp [wakeBeforeAuditGo, hok]
    | j + 1 =>
      have hne : o k ≠ .ok := by
        have := hfirst 0 (by omega); simpa using this
      have hrec := ih (k + 1) j (by omega)
        (fun i hi => by
          have := hfirst (i + 1) (by omega)
          rwa [show k + (i + 1) = k + 1 + i by omega] at this)
        (by rwa [show k + 1 + j = k + (j + 1) by omega])
      cases ho : o k with
      | ok => exact absurd ho hne
      | httpError s =>
        constructor
        · simp only [wakeBeforeAuditGo, ho]
          rw [attemptCount_cons_attempt, hrec.1]
        · simp only [wakeBeforeAuditGo, ho]; exact hrec.2
      | timeout =>
        constructor
        · simp only [wakeBeforeAuditGo, ho]
          split
          · rw [attemptCount_cons_attempt, attemptCount_cons_wait, hrec.1]
          · rw [attemptCount_cons_attempt, hrec.1]
        · simp only [wakeBeforeAuditGo, ho]
          split <;> exact hrec.2
      | netError =>
        constructor
        · simp only [wakeBeforeAuditGo, ho]
          split
          · rw [attemptCount_cons_attempt, attemptCount_cons_wait, hrec.1]
          · rw [attemptCount_cons_attempt, hrec.1]
        · simp only [wakeBeforeAuditGo, ho]
          split <;> exact hrec.2

/-- C7: for any sequence of outcomes the pre-submission prober performs at
most its attempt bound of 8 probe attempts (it is a total function, hence
terminates), returns `true` exactly when some attempt within the bound draws
a healthy response — stopping at the first such attempt — and returns
`false` once the bound is exhausted. -/
theorem C7_prober_bounded (o : ℕ → ProbeOutcome) :
    attemptCount (wakeUpServerBeforeAudit o).1 ≤ AUDIT_MAX_RETRIES ∧
    ((wakeUpServerBeforeAudit o).2 = true ↔
      ∃ j, j < AUDIT_MAX_RETRIES ∧ o j = .ok) ∧
    (∀ j, j < AUDIT_MAX_RETRIES → (∀ i, i < j → o i ≠ .ok) → o j = .ok →
      attemptCount (wakeUpServerBeforeAudit o).1 = j + 1 ∧
      (wakeUpServerBeforeAudit o).2 = true) := by
  obtain ⟨hc, hr⟩ := wakeBeforeAuditGo_spec o AUDIT_MAX_RETRIES 0
  refine ⟨hc, ?_, ?_⟩
  · simpa using hr
  · intro j hj hfirst hok
    exact wakeBeforeAuditGo_first_ok o AUDIT_MAX_RETRIES 0 j hj
      (by simpa using hfirst) (by simpa using hok)

/-- C7 (witness): two network errors then a healthy response on attempt 3:
the prober performs exactly 3 attempts and returns `true`. -/
theorem C7_prober_bounded_witness :
    attemptCount (wakeUpServerBeforeAudit
      (fun k => if k < 2 then .netError else .ok)).1 ≤ AUDIT_MAX_RETRIES ∧
    ((wakeUpServerBeforeAudit
      (fun k => if k < 2 then .netError else .ok)).2 = true ↔
      ∃ j, j < AUDIT_MAX_RETRIES ∧
        (fun k => if k < 2 then ProbeOutcome.netError else .ok) j = .ok) ∧
    (∀ j, j < AUDIT_MAX_RETRIES →
      (∀ i, i < j →
        (fun k => if k < 2 then ProbeOutcome.netError else .ok) i ≠ .ok) →
      (fun k => if k < 2 then ProbeOutcome.netError else .ok) j = .ok →
      attemptCount (wakeUpServerBeforeAudit
        (fun k => if k < 2 then .netError else .ok)).1 = j + 1 ∧
      (wakeUpServerBeforeAudit
        (fun k => if k < 2 then .netError else .ok)).2 = true) :=
  C7_prober_bounded (fun k => if k < 2 then .netError else .ok)

/-! ## C4: what follows a non-success probe attempt -/

/-- Any prober iteration with fuel remaining records its own attempt first. -/
theorem wakeBeforeAuditGo_head (o : ℕ → ProbeOutcome) (fuel k : ℕ) :
    ∃ rest, (wakeBeforeAuditGo o (fuel + 1) k).1 =
      .attempt k (o k) :: rest := by
  cases ho : o k <;> simp only [wakeBeforeAuditGo, ho]
  · exact ⟨[], rfl⟩
  · exact ⟨_, rfl⟩
  · split
    · exact ⟨_, rfl⟩
    · exact ⟨_, rfl⟩
  · split
    · exact ⟨_, rfl⟩
    · exact ⟨_, rfl⟩

/-- C4 (counterexample): with every ping answered by a non-healthy HTTP 503
response, the startup prober `wakeUpServer` performs exactly one attempt and
stops: the non-success outcome is followed by no wait and no further
attempt, although the attempt bound (5) is not reached — refuting the claim
that in every readiness-probing run each non-success attempt is followed by
a backoff wait and another attempt until the bound. -/
theorem C4_counterexample :
    wakeUpServer (fun _ => ProbeOutcome.httpError 503) =
      ([WakeAction.attempt 0 (ProbeOutcome.httpError 503)], false) ∧
    attemptCount (wakeUpServer (fun _ => ProbeOutcome.httpError 503)).1 = 1 ∧
    1 < WAKE_MAX_RETRIES := by
  refine ⟨rfl, rfl, by decide⟩

/-- C4 (amended): in the pre-submission prober, an attempt that returned a
non-healthy HTTP status is followed immediately by the next attempt with no
intervening wait, while an attempt that threw (timeout or network error) and
is not the last one is followed by the backoff-policy wait and then the next
attempt; in the startup prober, an HTTP-error response ends the run with no
further attempt, and only thrown failures (below its bound) are followed by
a wait and a retry. -/
theorem C4_amended_nonsuccess_handling :
    (∀ o : ℕ → ProbeOutcome, ∀ fuel k s, o k = .httpError s →
      ∃ rest, (wakeBeforeAuditGo o (fuel + 2) k).1 =
        .attempt k (.httpError s) :: .attempt (k + 1) (o (k + 1)) :: rest) ∧
    (∀ o : ℕ → ProbeOutcome, ∀ fuel k,
      (o k = .timeout ∨ o k = .netError) → k < AUDIT_MAX_RETRIES - 1 →
      (wakeBeforeAuditGo o (fuel + 1) k).1 =
        .attempt k (o k) :: .wait (auditWakeDelay k) ::
          (wakeBeforeAuditGo o fuel (k + 1)).1) ∧
    (∀ o : ℕ → ProbeOutcome, ∀ fuel k s, o k = .httpError s →
      wakeUpServerGo o (fuel + 1) k =
        ([.attempt k (.httpError s)], false)) ∧
    (∀ o : ℕ → ProbeOutcome, ∀ fuel k,
      (o k = .timeout ∨ o k = .netError) → k < WAKE_MAX_RETRIES - 1 →
      (wakeUpServerGo o (fuel + 1) k).1 =
        .attempt k (o k) :: .wait (wakeUpDelay k) ::
          (wakeUpServerGo o fuel (k + 1)).1) := by
  refine ⟨?_, ?_, ?_, ?_⟩
  · intro o fuel k s ho
    obtain ⟨rest, hrest⟩ := wakeBeforeAuditGo_head o fuel (k + 1)
    refine ⟨rest, ?_⟩
    have hstep : wakeBeforeAuditGo o (fuel + 1 + 1) k =
        (.attempt k (.httpError s) ::
          (wakeBeforeAuditGo o (fuel + 1) (k + 1)).1,
         (wakeBeforeAuditGo o (fuel + 1) (k + 1)).2) := by
      simp only [wakeBeforeAuditGo, ho]
    rw [show fuel + 2 = fuel + 1 + 1 from rfl, hstep, hrest]
  · rintro o fuel k (ho | ho) hk <;>
      simp only [wakeBeforeAuditGo, ho, if_pos hk]
  · intro o fuel k s ho
    simp only [wakeUpServerGo, ho]
  · rintro o fuel k (ho | ho) hk <;>
      simp only [wakeUpServerGo, ho, if_pos hk]

/-- C4 (witness): the amended statement instantiated — HTTP 503 on every
attempt for the two HTTP-error parts, a timeout on every attempt for the
two thrown-failure parts, all at attempt index 0. -/
theorem C4_amended_witness :
    (∃ rest, (wakeBeforeAuditGo (fun _ => ProbeOutcome.httpError 503) 8 0).1 =
      .attempt 0 (.httpError 503) ::
        .attempt 1 ((fun _ => ProbeOutcome.httpError 503) 1) :: rest) ∧
    ((wakeBeforeAuditGo (fun _ => ProbeOutcome.timeout) 8 0).1 =
      .attempt 0 ((fun _ => ProbeOutcome.timeout) 0) ::
        .wait (auditWakeDelay 0) ::
        (wakeBeforeAuditGo (fun _ => ProbeOutcome.timeout) 7 1).1) ∧
    (wakeUpServerGo (fun _ => ProbeOutcome.httpError 503) 5 0 =
      ([.attempt 0 (.httpError 503)], false)) ∧
    ((wakeUpServerGo (fun _ => ProbeOutcome.timeout) 5 0).1 =
      .attempt 0 ((fun _ => ProbeOutcome.timeout) 0) ::
        .wait (wakeUpDelay 0) ::
        (wakeUpServerGo (fun _ => ProbeOutcome.timeout) 4 1).1) :=
  ⟨C4_amended_nonsuccess_handling.1 (fun _ => .httpError 503) 6 0 503 rfl,
   C4_amended_nonsuccess_handling.2.1 (fun _ => .timeout) 7 0
     (Or.inl rfl) (by decide),
   C4_amended_nonsuccess_handling.2.2.1 (fun _ => .httpError 503) 4 0 503 rfl,
   C4_amended_nonsuccess_handling.2.2.2 (fun _ => .timeout) 4 0
     (Or.inl rfl) (by decide)⟩

/-! ## C5: submission retry on transient failures -/

theorem submitCount_nil : submitCount [] = 0 := rfl

theorem submitCount_append (a b : List OAction) :
    submitCount (a ++ b) = submitCount a + submitCount b := by
  simp [submitCount, List.filter_append]

theorem submitCount_cons (a : OAction) (tr : List OAction) :
    submitCount (a :: tr) =
      (if a.isSubmit then 1 else 0) + submitCount tr := by
  simp only [submitCount, List.filter]
  split <;> simp_all [Nat.add_comm]

/-- Lifted prober steps are never submission POSTs. -/
theorem submitCount_map_liftWake (l : List WakeAction) :
    submitCount (l.map liftWake) = 0 := by
  induction l with
  | nil => rfl
  | cons a l ih =>
    cases a <;> simp [liftWake, submitCount_cons, OAction.isSubmit, ih]

/-- Each level of the submission retry loop issues exactly one POST plus
whatever the recursive call issues, so a run with `fuel` levels issues at
most `fuel` POSTs. -/
theorem sendGo_submitCount (s : ℕ → SubmitOutcome)
    (w : ℕ → ℕ → ProbeOutcome) :
    ∀ fuel attempt, submitCount (sendGo s w fuel attempt).1 ≤ fuel := by
  intro fuel
  induction fuel with
  | zero => intro attempt; simp [sendGo, submitCount_nil]
  | succ fuel ih =>
    intro attempt
    have hrec := ih (attempt + 1)
    cases hs : s attempt with
    | ok rid =>
      simp [sendGo, hs, submitCount_cons, submitCount_nil, OAction.isSubmit]
    | httpErr st =>
      simp [sendGo, hs, submitCount_cons, submitCount_nil, OAction.isSubmit]
    | netFail =>
      simp only [sendGo, hs]
      split <;>
        simp [submitCount_append, submitCount_cons, submitCount_nil,
          submitCount_map_liftWake, OAction.isSubmit]
      all_goals omega
    | abortTimeout =>
      simp only [sendGo, hs]
      split <;>
        simp [submitCount_append, submitCount_cons, submitCount_nil,
          submitCount_map_liftWake, OAction.isSubmit]
      all_goals omega

theorem sendGo_ok (s : ℕ → SubmitOutcome) (w : ℕ → ℕ → ProbeOutcome)
    (fuel attempt : ℕ) (rid : Option String) (hs : s attempt = .ok rid) :
    sendGo s w (fuel + 1) attempt =
      ([.log (.sendingAudit attempt SUBMIT_MAX_ATTEMPTS) .info,
        .submit attempt], .ok rid) := by
  simp only [sendGo, hs]

theorem sendGo_httpErr (s : ℕ → SubmitOutcome) (w : ℕ → ℕ → ProbeOutcome)
    (fuel attempt st : ℕ) (hs : s attempt = .httpErr st) :
    sendGo s w (fuel + 1) attempt =
      ([.log (.sendingAudit attempt SUBMIT_MAX_ATTEMPTS) .info,
        .submit attempt], .error (.httpError st)) := by
  simp only [sendGo, hs]

/-- A transient failure (thrown "Failed to fetch" or `AbortError`) with
attempts left: log the failure and the next attempt index, re-run the
prober, wait 2000 ms, recurse. -/
theorem sendGo_transient (s : ℕ → SubmitOutcome) (w : ℕ → ℕ → ProbeOutcome)
    (fuel attempt : ℕ) (hs : s attempt = .netFail ∨ s attempt = .abortTimeout)
    (hlt : attempt < SUBMIT_MAX_ATTEMPTS) :
    sendGo s w (fuel + 1) attempt =
      ([.log (.sendingAudit attempt SUBMIT_MAX_ATTEMPTS) .info,
        .submit attempt,
        .log (.auditRequestFailed (errOf (s attempt))) .error,
        .log (.retryingAfterWake (attempt + 1) SUBMIT_MAX_ATTEMPTS) .warning] ++
        (wakeUpServerBeforeAudit (w attempt)).1.map liftWake ++
        [.wait 2000] ++ (sendGo s w fuel (attempt + 1)).1,
       (sendGo s w fuel (attempt + 1)).2) := by
  rcases hs with hs | hs <;> simp [sendGo, hs, if_pos hlt, errOf]

/-- A transient failure on the last allowed attempt propagates the error. -/
theorem sendGo_transient_last (s : ℕ → SubmitOutcome)
    (w : ℕ → ℕ → ProbeOutcome) (fuel attempt : ℕ)
    (hs : s attempt = .netFail ∨ s attempt = .abortTimeout)
    (hge : ¬ attempt < SUBMIT_MAX_ATTEMPTS) :
    sendGo s w (fuel + 1) attempt =
      ([.log (.sendingAudit attempt SUBMIT_MAX_ATTEMPTS) .info,
        .submit attempt], .error (errOf (s attempt))) := by
  rcases hs with hs | hs <;> simp [sendGo, hs, if_neg hge, errOf]

/-- C5: a submission attempt failing transiently (thrown connection failure
or timeout, but not the synthetic HTTP-status error) is retried after
logging the retry with its attempt index, re-running the readiness prober
and waiting 2000 ms; at most 3 POSTs are ever issued; a non-transient
failure propagates immediately, and three transient failures exhaust the
bound and propagate the error. -/
theorem C5_submission_retry (s : ℕ → SubmitOutcome)
    (w : ℕ → ℕ → ProbeOutcome) :
    submitCount (sendAuditRequest s w).1 ≤ SUBMIT_MAX_ATTEMPTS ∧
    (∀ st, s 1 = .httpErr st → sendAuditRequest s w =
      ([.log (.sendingAudit 1 SUBMIT_MAX_ATTEMPTS) .info, .submit 1],
       .error (.httpError st))) ∧
    ((s 1 = .netFail ∨ s 1 = .abortTimeout) → sendAuditRequest s w =
      ([.log (.sendingAudit 1 SUBMIT_MAX_ATTEMPTS) .info, .submit 1,
        .log (.auditRequestFailed (errOf (s 1))) .error,
        .log (.retryingAfterWake 2 SUBMIT_MAX_ATTEMPTS) .warning] ++
        (wakeUpServerBeforeAudit (w 1)).1.map liftWake ++
        [.wait 2000] ++ (sendGo s w 2 2).1, (sendGo s w 2 2).2)) ∧
    ((s 1 = .netFail ∧ s 2 = .netFail ∧ s 3 = .netFail) →
      (sendAuditRequest s w).2 = .error .failedToFetch ∧
      submitCount (sendAuditRequest s w).1 = 3) := by
  refine ⟨sendGo_submitCount s w SUBMIT_MAX_ATTEMPTS 1, ?_, ?_, ?_⟩
  · intro st hs
    rw [sendAuditRequest, show SUBMIT_MAX_ATTEMPTS = 2 + 1 from rfl,
      sendGo_httpErr s w 2 1 st hs]
    rfl
  · intro hs
    rw [sendAuditRequest, show SUBMIT_MAX_ATTEMPTS = 2 + 1 from rfl,
      sendGo_transient s w 2 1 hs (by decide)]
    rfl
  · rintro ⟨h1, h2, h3⟩
    have e1 := sendGo_transient s w 2 1 (Or.inl h1) (by decide)
    have e2 := sendGo_transient s w 1 2 (Or.inl h2) (by decide)
    have e3 := sendGo_transient_last s w 0 3 (Or.inl h3) (by decide)
    rw [sendAuditRequest, show SUBMIT_MAX_ATTEMPTS = 2 + 1 from rfl, e1]
    rw [show (2 : ℕ) = 1 + 1 from rfl] at e2 ⊢
    rw [e2]
    rw [show (1 : ℕ) = 0 + 1 from rfl] at e3 ⊢
    rw [e3, h1, h2, h3]
    refine ⟨rfl, ?_⟩
    simp [submitCount_append, submitCount_cons, submitCount_nil,
      submitCount_map_liftWake, OAction.isSubmit, errOf]

/-- C5 (witness): the C5 statement instantiated at an oracle whose first two
submission attempts fail with "Failed to fetch" and whose third succeeds. -/
theorem C5_submission_retry_witness :
    submitCount (sendAuditRequest
      (fun k => if k < 3 then .netFail else .ok none)
      (fun _ _ => .ok)).1 ≤ SUBMIT_MAX_ATTEMPTS ∧
    (∀ st, (fun k => if k < 3 then SubmitOutcome.netFail else .ok none) 1 =
        .httpErr st →
      sendAuditRequest (fun k => if k < 3 then .netFail else .ok none)
        (fun _ _ => .ok) =
      ([.log (.sendingAudit 1 SUBMIT_MAX_ATTEMPTS) .info, .submit 1],
       .error (.httpError st))) ∧
    (((fun k => if k < 3 then SubmitOutcome.netFail else .ok none) 1 =
        .netFail ∨
      (fun k => if k < 3 then SubmitOutcome.netFail else .ok none) 1 =
        .abortTimeout) →
      sendAuditRequest (fun k => if k < 3 then .netFail else .ok none)
        (fun _ _ => .ok) =
      ([.log (.sendingAudit 1 SUBMIT_MAX_ATTEMPTS) .info, .submit 1,
        .log (.auditRequestFailed (errOf
          ((fun k => if k < 3 then SubmitOutcome.netFail else .ok none) 1)))
          .error,
        .log (.retryingAfterWake 2 SUBMIT_MAX_ATTEMPTS) .warning] ++
        (wakeUpServerBeforeAudit ((fun _ _ => ProbeOutcome.ok) 1)).1.map
          liftWake ++
        [.wait 2000] ++
        (sendGo (fun k => if k < 3 then .netFail else .ok none)
          (fun _ _ => .ok) 2 2).1,
       (sendGo (fun k => if k < 3 then .netFail else .ok none)
          (fun _ _ => .ok) 2 2).2)) ∧
    (((fun k => if k < 3 then SubmitOutcome.netFail else .ok none) 1 =
        .netFail ∧
      (fun k => if k < 3 then SubmitOutcome.netFail else .ok none) 2 =
        .netFail ∧
      (fun k => if k < 3 then SubmitOutcome.netFail else .ok none) 3 =
        .netFail) →
      (sendAuditRequest (fun k => if k < 3 then .netFail else .ok none)
        (fun _ _ => .ok)).2 = .error .failedToFetch ∧
      submitCount (sendAuditRequest
        (fun k => if k < 3 then .netFail else .ok none)
        (fun _ _ => .ok)).1 = 3) :=
  C5_submission_retry (fun k => if k < 3 then .netFail else .ok none)
    (fun _ _ => .ok)


/-! ## C3: at most one stream consumer per correlation id -/

theorem opensOK_nil (opns : List String) : opensOK opns [] = true := rfl

theorem opensOK_open (opns : List String) (id : String) (tr : List OAction) :
    opensOK opns (.openStream id :: tr) =
      (decide (opns.count id = 0) && opensOK (id :: opns) tr) := rfl

theorem opensOK_close (opns : List String) (id : String) (tr : List OAction) :
    opensOK opns (.closeStream id :: tr) = opensOK (opns.erase id) tr := rfl

theorem opensOK_nonstream (a : OAction) (opns : List String)
    (tr : List OAction) (h : a.isStream = false) :
    opensOK opns (a :: tr) = opensOK opns tr := by
  cases a <;> first | rfl | simp [OAction.isStream] at h

theorem opensOK_append_nonstream (t1 t2 : List OAction) (opns : List String)
    (h : ∀ a ∈ t1, a.isStream = false) :
    opensOK opns (t1 ++ t2) = opensOK opns t2 := by
  induction t1 generalizing opns with
  | nil => rfl
  | cons a t ih =>
    rw [List.cons_append, opensOK_nonstream a _ _ (h a (by simp)),
      ih _ (fun b hb => h b (by simp [hb]))]

theorem liftWake_nonstream (wa : WakeAction) :
    (liftWake wa).isStream = false := by
  cases wa <;> rfl

theorem mapLiftWake_nonstream (l : List WakeAction) :
    ∀ a ∈ l.map liftWake, a.isStream = false := by
  intro a ha
  obtain ⟨wa, _, rfl⟩ := List.mem_map.mp ha
  exact liftWake_nonstream wa

/-- The pre-submission prober block opens and closes no stream. -/
theorem preTrace_nonstream (env : Env) :
    ∀ a ∈ preTrace env, a.isStream = false := by
  intro a ha
  rcases List.mem_append.mp ha with h | h
  · exact mapLiftWake_nonstream _ a h
  · split at h
    · simp at h
    · simp at h
      subst h
      rfl

/-- The submission-with-retry block opens and closes no stream. -/
theorem sendGo_nonstream (s : ℕ → SubmitOutcome) (w : ℕ → ℕ → ProbeOutcome) :
    ∀ fuel attempt, ∀ a ∈ (sendGo s w fuel attempt).1,
      a.isStream = false := by
  intro fuel
  induction fuel with
  | zero => intro attempt a ha; simp [sendGo] at ha
  | succ fuel ih =>
    intro attempt a ha
    cases hs : s attempt <;> simp only [sendGo, hs] at ha
    case ok rid =>
      simp at ha
      rcases ha with rfl | rfl <;> rfl
    case httpErr st =>
      simp at ha
      rcases ha with rfl | rfl <;> rfl
    case netFail =>
      split at ha <;> simp at ha
      · rcases ha with rfl | rfl | rfl | rfl | ⟨wa, hwa, rfl⟩ | rfl | hr
        · rfl
        · rfl
        · rfl
        · rfl
        · exact liftWake_nonstream wa
        · rfl
        · exact ih (attempt + 1) a hr
      · rcases ha with rfl | rfl <;> rfl
    case abortTimeout =>
      split at ha <;> simp at ha
      · rcases ha with rfl | rfl | rfl | rfl | ⟨wa, hwa, rfl⟩ | rfl | hr
        · rfl
        · rfl
        · rfl
        · rfl
        · exact liftWake_nonstream wa
        · rfl
        · exact ih (attempt + 1) a hr
      · rcases ha with rfl | rfl <;> rfl


/-- Replaying the prefix of a `handleAudit` trace up to and including the
stream-open for the client id: starting from the stored connection as the
only possibly-open stream, the prober block changes nothing, the stored
connection is closed first, the client stream opens against an empty open
set, and any continuation is then checked with exactly the client stream
open. -/
theorem opensOK_core (env : Env) (tail : List OAction)
    (htail : opensOK [env.clientId] tail = true) :
    opensOK env.prior.toList
      (preTrace env ++ (closePrior env ++ (openTrace env ++ tail))) =
      true := by
  rw [opensOK_append_nonstream _ _ _ (preTrace_nonstream env)]
  have h2 : opensOK [] (openTrace env ++ tail) = true := by
    have hsh : openTrace env ++ tail =
        .openStream env.clientId :: .wait 500 :: .wait 500 :: tail := rfl
    rw [hsh, opensOK_open, opensOK_nonstream (.wait 500) _ _ rfl,
      opensOK_nonstream (.wait 500) _ _ rfl, htail]
    rfl
  cases hp : env.prior with
  | none => simpa [closePrior, hp] using h2
  | some p =>
    simp only [closePrior, hp, Option.toList, List.singleton_append,
      opensOK_close, List.erase_cons_head]
    exact h2

/-- The reconciliation block replayed with the client stream open: the old
stream is closed before the server-assigned one opens, so the per-id bound
is kept. -/
theorem opensOK_recon_block (c r : String) :
    opensOK [c]
      (.log .reconnectingSSE .info :: .closeStream c :: .openStream r ::
        [.setResult, .scheduleClose r 5000]) = true := by
  rw [opensOK_nonstream (.log .reconnectingSSE .info) _ _ rfl, opensOK_close,
    List.erase_cons_head, opensOK_open]
  rfl

/-- C3: during one `handleAudit` run, starting from the stored connection as
the only possibly-open stream, at every instant at most one stream consumer
is open per correlation id (`opensOK` checks every `openStream` against the
streams still open at that point); and whenever the run ends reconciled to
a server-assigned id, the old consumer is closed immediately before the new
one is opened. -/
theorem C3_single_consumer_per_id (env : Env) (url : String) :
    opensOK env.prior.toList (handleAudit env url).1 = true ∧
    (∀ fid, (handleAudit env url).2 = .completed fid → fid ≠ env.clientId →
      ∃ pre post, (handleAudit env url).1 =
        pre ++ [.log .reconnectingSSE .info, .closeStream env.clientId,
                .openStream fid] ++ post) := by
  have hsendtr : ∀ a ∈ (sendAuditRequest env.submits env.probesRetry).1,
      a.isStream = false :=
    sendGo_nonstream env.submits env.probesRetry SUBMIT_MAX_ATTEMPTS 1
  by_cases hv : url = "" ∨ url = "https://"
  · constructor
    · simp [handleAudit, hv, opensOK_nil]
    · intro fid hfid
      simp [handleAudit, hv] at hfid
  · cases hsend : (sendAuditRequest env.submits env.probesRetry).2 with
    | ok rid =>
      constructor
      · simp only [handleAudit, if_neg hv, hsend, List.append_assoc]
        refine opensOK_core env _ ?_
        rw [opensOK_append_nonstream _ _ _ hsendtr]
        cases rid with
        | none => rfl
        | some r =>
          rw [reconTrace]
          split
          · exact opensOK_recon_block env.clientId r
          · rfl
      · intro fid hfid hne
        simp only [handleAudit, if_neg hv, hsend] at hfid ⊢
        injection hfid with hfid2
        cases rid with
        | none => exact absurd (by simpa [reconTrace] using hfid2.symm) hne
        | some r =>
          rw [reconTrace] at hfid2 ⊢
          by_cases hr : r ≠ "" ∧ r ≠ env.clientId
          · rw [if_pos hr] at hfid2 ⊢
            subst hfid2
            exact ⟨preTrace env ++ closePrior env ++ openTrace env ++
              (sendAuditRequest env.submits env.probesRetry).1,
              [.setResult, .scheduleClose r 5000], by
                simp [List.append_assoc]⟩
          · rw [if_neg hr] at hfid2
            exact absurd hfid2.symm hne
    | error e =>
      constructor
      · simp only [handleAudit, if_neg hv, hsend, List.append_assoc]
        refine opensOK_core env _ ?_
        rw [opensOK_append_nonstream _ _ _ hsendtr, opensOK_close,
          List.erase_cons_head]
        rfl
      · intro fid hfid
        simp [handleAudit, hv, hsend] at hfid

/-! ## C9: the stream is opened before the submission -/

/-- Every submission run begins by logging and issuing its first POST. -/
theorem sendGo_head (s : ℕ → SubmitOutcome) (w : ℕ → ℕ → ProbeOutcome)
    (fuel attempt : ℕ) :
    ∃ tail, (sendGo s w (fuel + 1) attempt).1 =
      .log (.sendingAudit attempt SUBMIT_MAX_ATTEMPTS) .info ::
      .submit attempt :: tail := by
  cases hs : s attempt <;> simp only [sendGo, hs]
  · exact ⟨[], rfl⟩
  · exact ⟨[], rfl⟩
  · split
    · exact ⟨_, rfl⟩
    · exact ⟨[], rfl⟩
  · split
    · exact ⟨_, rfl⟩
    · exact ⟨[], rfl⟩

/-- The first POST appears in the submission block. -/
theorem submit_mem_sendAuditRequest (s : ℕ → SubmitOutcome)
    (w : ℕ → ℕ → ProbeOutcome) :
    OAction.submit 1 ∈ (sendAuditRequest s w).1 := by
  obtain ⟨tail, h⟩ := sendGo_head s w 2 1
  rw [sendAuditRequest, show SUBMIT_MAX_ATTEMPTS = 2 + 1 from rfl, h]
  simp

/-- The pre-submission prober block issues no POST. -/
theorem preTrace_nosubmit (env : Env) :
    ∀ a ∈ preTrace env, a.isSubmit = false := by
  intro a ha
  rcases List.mem_append.mp ha with h | h
  · obtain ⟨wa, _, rfl⟩ := List.mem_map.mp h
    cases wa <;> rfl
  · split at h
    · simp at h
    · simp at h
      subst h
      rfl

/-- Closing the previously stored connection issues no POST. -/
theorem closePrior_nosubmit (env : Env) :
    ∀ a ∈ closePrior env, a.isSubmit = false := by
  intro a ha
  cases hp : env.prior <;> simp [closePrior, hp] at ha
  subst ha
  rfl

/-- C9: in every run that passes validation, the event stream for the
client-generated correlation id is opened strictly before any submission
POST: the trace splits at `openStream clientId` with no POST before it and
the first POST after it. -/
theorem C9_stream_open_before_submit (env : Env) (url : String)
    (hv : ¬(url = "" ∨ url = "https://")) :
    ∃ pre post, (handleAudit env url).1 =
      pre ++ .openStream env.clientId :: post ∧
      (∀ k, OAction.submit k ∉ pre) ∧ OAction.submit 1 ∈ post := by
  have hnosub : ∀ k, OAction.submit k ∉ preTrace env ++ closePrior env := by
    intro k hk
    rcases List.mem_append.mp hk with h | h
    · exact absurd (preTrace_nosubmit env _ h) (by simp [OAction.isSubmit])
    · exact absurd (closePrior_nosubmit env _ h) (by simp [OAction.isSubmit])
  have hmem : OAction.submit 1 ∈
      (sendAuditRequest env.submits env.probesRetry).1 :=
    submit_mem_sendAuditRequest env.submits env.probesRetry
  cases hsend : (sendAuditRequest env.submits env.probesRetry).2 with
  | ok rid =>
    refine ⟨preTrace env ++ closePrior env,
      .wait 500 :: .wait 500 ::
        ((sendAuditRequest env.submits env.probesRetry).1 ++
          ((reconTrace env.clientId rid).1 ++
            [.setResult,
             .scheduleClose (reconTrace env.clientId rid).2 5000])),
      ?_, hnosub, by simp [hmem]⟩
    simp only [handleAudit, if_neg hv, hsend, openTrace]
    simp [List.append_assoc]
  | error e =>
    refine ⟨preTrace env ++ closePrior env,
      .wait 500 :: .wait 500 ::
        ((sendAuditRequest env.submits env.probesRetry).1 ++
          [.closeStream env.clientId, .setError,
           .scheduleClose env.clientId 5000]),
      ?_, hnosub, by simp [hmem]⟩
    simp only [handleAudit, if_neg hv, hsend, openTrace]
    simp [List.append_assoc]

/-! ## C8: prober exhaustion does not abort the run -/

/-- C8: when the pre-submission prober exhausts its bound (returns `false`),
`handleAudit` still opens the event stream and still issues the submission
POST, and a successful first submission still completes the job — prober
exhaustion is never by itself surfaced as a job failure. -/
theorem C8_proceeds_after_exhaustion (env : Env) (url : String)
    (hv : ¬(url = "" ∨ url = "https://"))
    (_hw : (wakeUpServerBeforeAudit env.probesInit).2 = false) :
    OAction.openStream env.clientId ∈ (handleAudit env url).1 ∧
    OAction.submit 1 ∈ (handleAudit env url).1 ∧
    (∀ rid, env.submits 1 = .ok rid →
      (handleAudit env url).2 =
        .completed (reconTrace env.clientId rid).2) := by
  have hmem : OAction.submit 1 ∈
      (sendAuditRequest env.submits env.probesRetry).1 :=
    submit_mem_sendAuditRequest env.submits env.probesRetry
  refine ⟨?_, ?_, ?_⟩
  · cases hsend : (sendAuditRequest env.submits env.probesRetry).2 <;>
      simp [handleAudit, if_neg hv, hsend, openTrace]
  · cases hsend : (sendAuditRequest env.submits env.probesRetry).2 <;>
      simp [handleAudit, if_neg hv, hsend, hmem]
  · intro rid hrid
    have hsend : (sendAuditRequest env.submits env.probesRetry).2 =
        .ok rid := by
      rw [sendAuditRequest, show SUBMIT_MAX_ATTEMPTS = 2 + 1 from rfl,
        sendGo_ok env.submits env.probesRetry 2 1 rid hrid]
    simp [handleAudit, if_neg hv, hsend]

/-! ## C6: stream teardown at the terminal outcome -/

/-- A fixed environment: no stored connection, healthy probes, and a
submission that is rejected with HTTP 500 (a non-transient failure). -/
def envHttpFail : Env :=
  { prior := none, clientId := "c", probesInit := fun _ => .ok,
    probesRetry := fun _ _ => .ok, submits := fun _ => .httpErr 500 }

/-- C6 (counterexample): on a run ending in terminal failure the catch block
closes the stream consumer immediately (`closeStream` appears in the trace,
before the scheduled grace-period close), refuting the claim that on either
terminal outcome the consumer is only scheduled for close after the grace
period rather than closed immediately. -/
theorem C6_counterexample :
    handleAudit envHttpFail "https://example.com" =
      ([.probe 0 .ok, .openStream "c", .wait 500, .wait 500,
        .log (.sendingAudit 1 3) .info, .submit 1, .closeStream "c",
        .setError, .scheduleClose "c" 5000],
       .failed (.httpError 500)) ∧
    OAction.closeStream "c" ∈
      (handleAudit envHttpFail "https://example.com").1 := by
  refine ⟨by rfl, ?_⟩
  rw [show (handleAudit envHttpFail "https://example.com").1 =
    [.probe 0 .ok, .openStream "c", .wait 500, .wait 500,
     .log (.sendingAudit 1 3) .info, .submit 1, .closeStream "c",
     .setError, .scheduleClose "c" 5000] from rfl]
  simp

/-- C6 (amended): every validated run ends by scheduling the stream for
close after the 5000 ms grace period; on terminal failure, however, the
consumer is additionally closed immediately in the error handler, while on
terminal success without reconciliation (and with no stored connection to
clean up) no immediate close ever happens. -/
theorem C6_amended_teardown (env : Env) (url : String)
    (hv : ¬(url = "" ∨ url = "https://")) (hp : env.prior = none) :
    (∃ fid pre, (handleAudit env url).1 =
      pre ++ [OAction.scheduleClose fid 5000]) ∧
    (∀ e, (handleAudit env url).2 = .failed e →
      OAction.closeStream env.clientId ∈ (handleAudit env url).1) ∧
    ((handleAudit env url).2 = .completed env.clientId →
      ∀ id, OAction.closeStream id ∉ (handleAudit env url).1) := by
  refine ⟨?_, ?_, ?_⟩
  · cases hsend : (sendAuditRequest env.submits env.probesRetry).2 with
    | ok rid =>
      refine ⟨(reconTrace env.clientId rid).2,
        preTrace env ++ closePrior env ++ openTrace env ++
          (sendAuditRequest env.submits env.probesRetry).1 ++
          (reconTrace env.clientId rid).1 ++ [.setResult], ?_⟩
      simp [handleAudit, if_neg hv, hsend]
    | error e =>
      refine ⟨env.clientId,
        preTrace env ++ closePrior env ++ openTrace env ++
          (sendAuditRequest env.submits env.probesRetry).1 ++
          [.closeStream env.clientId, .setError], ?_⟩
      simp [handleAudit, if_neg hv, hsend]
  · intro e hfail
    cases hsend : (sendAuditRequest env.submits env.probesRetry).2 with
    | ok rid => simp [handleAudit, if_neg hv, hsend] at hfail
    | error e2 => simp [handleAudit, if_neg hv, hsend]
  · intro hdone id hmem
    cases hsend : (sendAuditRequest env.submits env.probesRetry).2 with
    | error e2 => simp [handleAudit, if_neg hv, hsend] at hdone
    | ok rid =>
      have hrec : (reconTrace env.clientId rid).1 = [] := by
        simp only [handleAudit, if_neg hv, hsend] at hdone
        injection hdone with h2
        cases rid with
        | none => rfl
        | some r =>
          rw [reconTrace] at h2 ⊢
          by_cases hc : r ≠ "" ∧ r ≠ env.clientId
          · rw [if_pos hc] at h2
            exact absurd h2 hc.2
          · rw [if_neg hc]
      simp only [handleAudit, if_neg hv, hsend, hrec, closePrior, hp,
        List.append_nil, List.nil_append] at hmem
      simp only [List.mem_append, openTrace] at hmem
      rcases hmem with ((hm | hm) | hm) | hm
      · exact absurd (preTrace_nonstream env _ hm)
          (by simp [OAction.isStream])
      · simp at hm
      · exact absurd
          (sendGo_nonstream env.submits env.probesRetry
            SUBMIT_MAX_ATTEMPTS 1 _ hm)
          (by simp [OAction.isStream])
      · simp at hm

/-! ## C10: the reconciled handler and audit_error frames -/

/-- C10: the handler installed on the reconciled stream produces log entries
only for the six types connected, audit_started, quota_exhausted_retry,
rate_limit_retry, retry_complete and audit_completed; an `audit_error` frame
produces no entry on the reconciled channel, while the original handler
logs it as an error entry. -/
theorem C10_reconciled_handler_drops_audit_error (e : SSEEvent) :
    (e.type = "audit_error" → handleSSEMessageReconciled e = [] ∧
      handleSSEMessage e = [(.auditError e.data.message, .error)]) ∧
    (handleSSEMessageReconciled e ≠ [] →
      e.type = "connected" ∨ e.type = "audit_started" ∨
      e.type = "quota_exhausted_retry" ∨ e.type = "rate_limit_retry" ∨
      e.type = "retry_complete" ∨ e.type = "audit_completed") := by
  constructor
  · intro ht
    constructor
    · simp [handleSSEMessageReconciled, ht]
    · simp [handleSSEMessage, ht]
  · intro hne
    by_contra hnot
    push_neg at hnot
    obtain ⟨h1, h2, h3, h4, h5, h6⟩ := hnot
    simp [handleSSEMessageReconciled, h1, h2, h3, h4, h5, h6] at hne

/-- A concrete `audit_error` frame. -/
def auditErrorEvent : SSEEvent :=
  { type := "audit_error", timestamp := none,
    data := { url := "", message := "quota exhausted after max retries",
              agent_name := "", retry_attempt := 0, max_retries := 0,
              total_wait_time := 0, retry_time_from_error := none,
              jitter := 0 } }

/-- C10 (witness): the statement at the concrete `audit_error` frame. -/
theorem C10_reconciled_handler_witness :
    (auditErrorEvent.type = "audit_error" →
      handleSSEMessageReconciled auditErrorEvent = [] ∧
      handleSSEMessage auditErrorEvent =
        [(.auditError auditErrorEvent.data.message, .error)]) ∧
    (handleSSEMessageReconciled auditErrorEvent ≠ [] →
      auditErrorEvent.type = "connected" ∨
      auditErrorEvent.type = "audit_started" ∨
      auditErrorEvent.type = "quota_exhausted_retry" ∨
      auditErrorEvent.type = "rate_limit_retry" ∨
      auditErrorEvent.type = "retry_complete" ∨
      auditErrorEvent.type = "audit_completed") :=
  C10_reconciled_handler_drops_audit_error auditErrorEvent

/-! ## Remaining witnesses -/

/-- A run with a stored prior connection and a reconciled server id. -/
def envRecon : Env :=
  { prior := some "p", clientId := "c", probesInit := fun _ => .ok,
    probesRetry := fun _ _ => .ok, submits := fun _ => .ok (some "srv") }

/-- C3 (witness): the C3 statement at a run that reconciles from client id
"c" to server id "srv" with a stored prior connection "p". -/
theorem C3_single_consumer_witness :
    opensOK envRecon.prior.toList
      (handleAudit envRecon "https://example.com").1 = true ∧
    (∀ fid, (handleAudit envRecon "https://example.com").2 =
        .completed fid → fid ≠ envRecon.clientId →
      ∃ pre post, (handleAudit envRecon "https://example.com").1 =
        pre ++ [.log .reconnectingSSE .info,
                .closeStream envRecon.clientId, .openStream fid] ++ post) :=
  C3_single_consumer_per_id envRecon "https://example.com"

/-- A clean success run: no stored connection, healthy probes, submission
succeeding with no server-assigned id. -/
def envClean : Env :=
  { prior := none, clientId := "c", probesInit := fun _ => .ok,
    probesRetry := fun _ _ => .ok, submits := fun _ => .ok none }

/-- C6 (witness): the amended teardown statement on the clean success run. -/
theorem C6_amended_teardown_witness :
    (∃ fid pre, (handleAudit envClean "https://example.com").1 =
      pre ++ [OAction.scheduleClose fid 5000]) ∧
    (∀ e, (handleAudit envClean "https://example.com").2 = .failed e →
      OAction.closeStream envClean.clientId ∈
        (handleAudit envClean "https://example.com").1) ∧
    ((handleAudit envClean "https://example.com").2 =
        .completed envClean.clientId →
      ∀ id, OAction.closeStream id ∉
        (handleAudit envClean "https://example.com").1) :=
  C6_amended_teardown envClean "https://example.com" (by decide) rfl

/-- A run whose wake-up probes all fail but whose submission succeeds. -/
def envColdOk : Env :=
  { prior := none, clientId := "c", probesInit := fun _ => .netError,
    probesRetry := fun _ _ => .netError, submits := fun _ => .ok none }

/-- C8 (witness): the C8 statement on a run with an exhausted prober and a
successful submission. -/
theorem C8_proceeds_witness :
    OAction.openStream envColdOk.clientId ∈
      (handleAudit envColdOk "https://example.com").1 ∧
    OAction.submit 1 ∈ (handleAudit envColdOk "https://example.com").1 ∧
    (∀ rid, envColdOk.submits 1 = .ok rid →
      (handleAudit envColdOk "https://example.com").2 =
        .completed (reconTrace envColdOk.clientId rid).2) :=
  C8_proceeds_after_exhaustion envColdOk "https://example.com"
    (by decide) rfl

/-- C9 (witness): the C9 statement on the reconciling run. -/
theorem C9_stream_open_witness :
    ∃ pre post, (handleAudit envRecon "https://example.com").1 =
      pre ++ .openStream envRecon.clientId :: post ∧
      (∀ k, OAction.submit k ∉ pre) ∧ OAction.submit 1 ∈ post :=
  C9_stream_open_before_submit envRecon "https://example.com" (by decide)
